import Mathlib

/-!
Shallow embedding of `src/icon_maker.py` (FocusTube icon generator).

The script opens a fixed JPEG (`Image.open "Icon.jpeg"`, line 4), then for
each `(size, filename)` pair of two fixed lists (lines 7-8), zipped
positionally (line 11), resizes the decoded bitmap to that exact size
(line 12) and saves it in PNG format (line 13), finally printing a fixed
success line (line 15).

The PIL library itself is not part of the repository, so its contract
(open / resize / save) is modelled from the specification's words; the
script body (lists, zip loop, save order, print) is translated from the
source.  Failures (missing source file, unwritable destination) are made
explicit through an environment record, since in Python they surface as
unhandled exceptions that abort the process.
-/

namespace IconMaker

/-- A decoded in-memory bitmap: pixel dimensions plus the decoded pixel
payload (the spec's "pixel grid plus color mode"; the payload is kept
opaque as a list of values, since no claim inspects individual pixels). -/
structure Bitmap where
  width : Nat
  height : Nat
  data : List Nat
  deriving DecidableEq, Repr

/-- The eight magic bytes that begin every PNG file. -/
def pngSignature : List Nat := [137, 80, 78, 71, 13, 10, 26, 10]

/-- Modelled from the spec: PIL's `save(filename, "PNG")` encoder, absent
from `src/`.  A PNG file is its signature followed by the serialized image
(dimensions, then pixel payload), per the spec's "valid PNG (correct
signature/magic bytes, decodable)". -/
def encodePNG (b : Bitmap) : List Nat :=
  pngSignature ++ b.width :: b.height :: b.data

/-- Modelled from the spec: decoding a PNG byte stream back to a bitmap
(used to state "decodable"); fails unless the signature is present. -/
def decodePNG (bytes : List Nat) : Option Bitmap :=
  if bytes.take 8 = pngSignature then
    match bytes.drop 8 with
    | w :: h :: data => some ⟨w, h, data⟩
    | _ => none
  else none

/-- A byte stream is a valid PNG when it carries the PNG signature and
decodes successfully. -/
def pngValid (bytes : List Nat) : Prop :=
  bytes.take 8 = pngSignature ∧ (decodePNG bytes).isSome = true

instance (bytes : List Nat) : Decidable (pngValid bytes) := by
  unfold pngValid; infer_instance

/-- Modelled from the spec: PIL's `Image.resize`, absent from `src/`.  It
returns a fresh bitmap whose pixel dimensions are exactly the requested
`(width, height)` box - no aspect-ratio preservation - with pixel content
produced by the library's resampling routine, which the source does not
pin down and which is therefore passed in as a parameter. -/
def resizeImg (resample : Bitmap → Nat × Nat → List Nat)
    (img : Bitmap) (size : Nat × Nat) : Bitmap :=
  { width := size.1, height := size.2, data := resample img size }

/-- The working directory, as an association list of filename/bytes pairs
(first binding wins on lookup). -/
abbrev FS := List (String × List Nat)

/-- Write a file: overwrite the existing binding of that name, or append
a new one ("overwriting any existing file of that name silently"). -/
def fsWrite : FS → String → List Nat → FS
  | [], n, b => [(n, b)]
  | (n0, b0) :: rest, n, b =>
      if n0 = n then (n, b) :: rest else (n0, b0) :: fsWrite rest n b

/-- Read a file's bytes from the directory, if present. -/
def fsGet : FS → String → Option (List Nat)
  | [], _ => none
  | (n, b) :: rest, m => if n = m then some b else fsGet rest m

/-- Apply a sequence of file writes in order. -/
def applyWrites (fs : FS) : List (String × List Nat) → FS
  | [] => fs
  | (n, b) :: rest => applyWrites (fsWrite fs n b) rest

/-- Observable events of a run: a completed file write, or a line printed
to standard output. -/
inductive Event where
  | write : String → List Nat → Event
  | printed : String → Event
  deriving DecidableEq, Repr

/-- How the process ends: normal completion (exit code zero) or an
unhandled error (non-zero exit). -/
inductive Outcome where
  | normal : Outcome
  | error : Outcome
  deriving DecidableEq, Repr

/-- The host environment the script runs against: what `Image.open
"Icon.jpeg"` yields (`none` models a missing/unreadable/invalid source
file, i.e. an unhandled exception), whether the k-th save succeeds
(disk/permission failures), and the library's resampling routine. -/
structure Env where
  openResult : Option Bitmap
  saveOk : Nat → Bool
  resample : Bitmap → Nat × Nat → List Nat

/-- Line 7 of the source: `sizes = [(16, 16), (48, 48), (128, 128)]`. -/
def sizes : List (Nat × Nat) := [(16, 16), (48, 48), (128, 128)]

/-- Line 8 of the source:
`filenames = ["icon16.png", "icon48.png", "icon128.png"]`. -/
def filenames : List String := ["icon16.png", "icon48.png", "icon128.png"]

/-- Line 15 of the source: the fixed success message. -/
def successMsg : String := "PNG icons generated successfully!"

/-- Lines 11-13 of the source: the body of
`for size, filename in zip(sizes, filenames)`.  Returns the list of
writes actually performed, in order, and whether every save succeeded;
a failing save aborts the loop at once (unhandled exception), keeping
the earlier writes. -/
def saveLoop (resample : Bitmap → Nat × Nat → List Nat) (saveOk : Nat → Bool)
    (img : Bitmap) : List ((Nat × Nat) × String) → Nat →
    List (String × List Nat) × Bool
  | [], _ => ([], true)
  | (size, filename) :: rest, k =>
      let bytes := encodePNG (resizeImg resample img size)
      if saveOk k then
        let r := saveLoop resample saveOk img rest (k + 1)
        ((filename, bytes) :: r.1, r.2)
      else ([], false)

/-- The final state of one run: resulting directory contents, ordered
event trace, process outcome, and the value still bound to the script's
`img` variable when the run ends (to state the frame property). -/
structure RunResult where
  fs : FS
  events : List Event
  outcome : Outcome
  source : Option Bitmap
  deriving Repr

/-- The whole script, generalized over the two configuration lists of
lines 7-8 (the concrete script instantiates them; the generalization is
needed to state the positional-truncation invariant of `zip`). -/
def runScriptWith (szs : List (Nat × Nat)) (fns : List String)
    (env : Env) (fs0 : FS) : RunResult :=
  match env.openResult with
  | none => { fs := fs0, events := [], outcome := Outcome.error, source := none }
  | some img =>
      let r := saveLoop env.resample env.saveOk img (szs.zip fns) 0
      let evs := r.1.map fun p => Event.write p.1 p.2
      if r.2 then
        { fs := applyWrites fs0 r.1
          events := evs ++ [Event.printed successMsg]
          outcome := Outcome.normal
          source := some img }
      else
        { fs := applyWrites fs0 r.1
          events := evs
          outcome := Outcome.error
          source := some img }

/-- The script of `src/icon_maker.py` as written: the generalized loop at
the fixed size and filename lists. -/
def runScript (env : Env) (fs0 : FS) : RunResult :=
  runScriptWith sizes filenames env fs0

/-- The file writes contained in an event trace, in order. -/
def writesOf (evs : List Event) : List (String × List Nat) :=
  evs.filterMap fun e =>
    match e with
    | Event.write n b => some (n, b)
    | Event.printed _ => none

/-- Dimensions of the image stored under a name in the directory, when
the file exists and decodes. -/
def outputDims (fs : FS) (name : String) : Option (Nat × Nat) :=
  match fsGet fs name with
  | none => none
  | some bytes => (decodePNG bytes).map fun b => (b.width, b.height)

/-- The lines printed by a run, in order. -/
def printsOf (evs : List Event) : List String :=
  evs.filterMap fun e =>
    match e with
    | Event.write _ _ => none
    | Event.printed s => some s

/-- A concrete 512×512 source bitmap (the spec's scenario input). -/
def imgW : Bitmap := ⟨512, 512, [7, 7, 7]⟩

/-- A concrete healthy environment: the source decodes and every save
succeeds. -/
def envAllOk : Env :=
  { openResult := some imgW, saveOk := fun _ => true, resample := fun _ _ => [0] }

/-- A concrete environment in which the first save succeeds and the
second save raises (for example, the disk fills up mid-run). -/
def envFailSecond : Env :=
  { openResult := some imgW, saveOk := fun k => decide (k = 0)
    resample := fun _ _ => [0] }

/-- A concrete environment in which `Image.open` raises (missing,
unreadable or invalid source file). -/
def envNoOpen : Env :=
  { openResult := none, saveOk := fun _ => true, resample := fun _ _ => [0] }

/-! ## Helper lemmas -/

theorem fsGet_fsWrite_same (fs : FS) (n : String) (b : List Nat) :
    fsGet (fsWrite fs n b) n = some b := by
  induction fs with
  | nil => simp [fsWrite, fsGet]
  | cons hd tl ih =>
      rcases hd with ⟨n0, b0⟩
      by_cases h : n0 = n
      · simp [fsWrite, fsGet, h]
      · simp [fsWrite, fsGet, h, ih]

theorem fsGet_fsWrite_other (fs : FS) {n m : String} (b : List Nat)
    (hnm : n ≠ m) : fsGet (fsWrite fs n b) m = fsGet fs m := by
  induction fs with
  | nil => simp [fsWrite, fsGet, hnm]
  | cons hd tl ih =>
      rcases hd with ⟨n0, b0⟩
      by_cases h : n0 = n
      · subst h; simp [fsWrite, fsGet, hnm]
      · simp [fsWrite, fsGet, h, ih]

theorem fsWrite_of_fsGet {fs : FS} {n : String} {b : List Nat}
    (h : fsGet fs n = some b) : fsWrite fs n b = fs := by
  induction fs with
  | nil => simp [fsGet] at h
  | cons hd tl ih =>
      rcases hd with ⟨n0, b0⟩
      by_cases h0 : n0 = n
      · subst h0
        simp [fsGet] at h
        simp [fsWrite, h]
      · simp [fsGet, h0] at h
        simp [fsWrite, h0, ih h]

theorem saveLoop_all_ok (resample : Bitmap → Nat × Nat → List Nat)
    (saveOk : Nat → Bool) (img : Bitmap) (hsave : ∀ k, saveOk k = true) :
    ∀ (pairs : List ((Nat × Nat) × String)) (k : Nat),
      saveLoop resample saveOk img pairs k =
        (pairs.map fun p => (p.2, encodePNG (resizeImg resample img p.1)), true) := by
  intro pairs
  induction pairs with
  | nil => intro k; rfl
  | cons hd tl ih =>
      intro k
      rcases hd with ⟨size, filename⟩
      simp [saveLoop, hsave k, ih (k + 1)]

theorem saveLoop_mem_encode (resample : Bitmap → Nat × Nat → List Nat)
    (saveOk : Nat → Bool) (img : Bitmap) :
    ∀ (pairs : List ((Nat × Nat) × String)) (k : Nat) (n : String) (b : List Nat),
      (n, b) ∈ (saveLoop resample saveOk img pairs k).1 →
      ∃ bm : Bitmap, b = encodePNG bm := by
  intro pairs
  induction pairs with
  | nil => intro k n b h; simp [saveLoop] at h
  | cons hd tl ih =>
      intro k n b h
      rcases hd with ⟨size, filename⟩
      cases hs : saveOk k with
      | false => simp [saveLoop, hs] at h
      | true =>
          simp [saveLoop, hs] at h
          rcases h with ⟨hn, hb⟩ | h
          · exact ⟨resizeImg resample img size, hb⟩
          · exact ih (k + 1) n b h

theorem decodePNG_encodePNG (b : Bitmap) : decodePNG (encodePNG b) = some b := rfl

theorem pngValid_encodePNG (b : Bitmap) : pngValid (encodePNG b) :=
  ⟨rfl, by rw [decodePNG_encodePNG]; rfl⟩

theorem zip_sizes_filenames :
    sizes.zip filenames =
      [((16, 16), "icon16.png"), ((48, 48), "icon48.png"),
       ((128, 128), "icon128.png")] := rfl

theorem runScript_ok (env : Env) (img : Bitmap) (fs0 : FS)
    (hopen : env.openResult = some img) (hsave : ∀ k, env.saveOk k = true) :
    runScript env fs0 =
      { fs := fsWrite (fsWrite (fsWrite fs0 "icon16.png"
                  (encodePNG (resizeImg env.resample img (16, 16))))
                "icon48.png" (encodePNG (resizeImg env.resample img (48, 48))))
              "icon128.png" (encodePNG (resizeImg env.resample img (128, 128)))
        events := [Event.write "icon16.png"
                     (encodePNG (resizeImg env.resample img (16, 16))),
                   Event.write "icon48.png"
                     (encodePNG (resizeImg env.resample img (48, 48))),
                   Event.write "icon128.png"
                     (encodePNG (resizeImg env.resample img (128, 128))),
                   Event.printed successMsg]
        outcome := Outcome.normal
        source := some img } := by
  unfold runScript runScriptWith
  rw [hopen]
  simp [zip_sizes_filenames, saveLoop_all_ok env.resample env.saveOk img hsave,
    applyWrites]

theorem fsWrite_thrice_idem (fs0 : FS) (n1 n2 n3 : String)
    (b1 b2 b3 : List Nat) (h21 : n2 ≠ n1) (h31 : n3 ≠ n1) (h32 : n3 ≠ n2) :
    fsWrite (fsWrite (fsWrite
        (fsWrite (fsWrite (fsWrite fs0 n1 b1) n2 b2) n3 b3) n1 b1) n2 b2)
      n3 b3 =
    fsWrite (fsWrite (fsWrite fs0 n1 b1) n2 b2) n3 b3 := by
  have g1 : fsGet (fsWrite (fsWrite (fsWrite fs0 n1 b1) n2 b2) n3 b3) n1 =
      some b1 := by
    rw [fsGet_fsWrite_other _ _ h31, fsGet_fsWrite_other _ _ h21,
      fsGet_fsWrite_same]
  rw [fsWrite_of_fsGet g1]
  have g2 : fsGet (fsWrite (fsWrite (fsWrite fs0 n1 b1) n2 b2) n3 b3) n2 =
      some b2 := by
    rw [fsGet_fsWrite_other _ _ h32, fsGet_fsWrite_same]
  rw [fsWrite_of_fsGet g2]
  exact fsWrite_of_fsGet (fsGet_fsWrite_same _ _ _)

theorem length_writesOf_resized (resample : Bitmap → Nat × Nat → List Nat)
    (img : Bitmap) (l : List ((Nat × Nat) × String)) (msg : String) :
    (writesOf ((l.map fun p =>
        Event.write p.2 (encodePNG (resizeImg resample img p.1))) ++
      [Event.printed msg])).length = l.length := by
  induction l with
  | nil => rfl
  | cons hd tl ih => simp [writesOf] at ih ⊢

/-! ## Claim theorems -/

/-- C1: for every source bitmap (any dimensions, so any aspect ratio),
when the load succeeds and every save succeeds, each of the three
outputs on disk decodes to pixel dimensions exactly equal to its target
size - 16×16, 48×48 and 128×128 - the image being stretched or squashed
to the exact target box. -/
theorem c1_exact_output_dims (env : Env) (img : Bitmap) (fs0 : FS)
    (hopen : env.openResult = some img) (hsave : ∀ k, env.saveOk k = true) :
    outputDims (runScript env fs0).fs "icon16.png" = some (16, 16) ∧
    outputDims (runScript env fs0).fs "icon48.png" = some (48, 48) ∧
    outputDims (runScript env fs0).fs "icon128.png" = some (128, 128) := by
  rw [runScript_ok env img fs0 hopen hsave]
  refine ⟨?_, ?_, ?_⟩
  · rw [outputDims, fsGet_fsWrite_other _ _ (by decide),
      fsGet_fsWrite_other _ _ (by decide), fsGet_fsWrite_same]
    simp [decodePNG_encodePNG, resizeImg]
  · rw [outputDims, fsGet_fsWrite_other _ _ (by decide), fsGet_fsWrite_same]
    simp [decodePNG_encodePNG, resizeImg]
  · rw [outputDims, fsGet_fsWrite_same]
    simp [decodePNG_encodePNG, resizeImg]

/-- C1 witness: the theorem applied to the concrete healthy environment
with the 512×512 source bitmap. -/
theorem c1_witness :
    outputDims (runScript envAllOk []).fs "icon16.png" = some (16, 16) ∧
    outputDims (runScript envAllOk []).fs "icon48.png" = some (48, 48) ∧
    outputDims (runScript envAllOk []).fs "icon128.png" = some (128, 128) :=
  c1_exact_output_dims envAllOk imgW [] rfl (fun _ => rfl)

/-- C2: for every valid decoded source and fully writable disk, a run
started in an empty directory ends with exactly the files "icon16.png",
"icon48.png" and "icon128.png" on disk, in that order, and the write
events of the run carry exactly those three filenames. -/
theorem c2_three_output_files (env : Env) (img : Bitmap)
    (hopen : env.openResult = some img) (hsave : ∀ k, env.saveOk k = true) :
    ((runScript env []).fs).map Prod.fst = filenames ∧
    (writesOf (runScript env []).events).map Prod.fst = filenames := by
  rw [runScript_ok env img [] hopen hsave]
  exact ⟨rfl, rfl⟩

/-- C2 witness: the theorem applied to the concrete healthy environment. -/
theorem c2_witness :
    ((runScript envAllOk []).fs).map Prod.fst = filenames ∧
    (writesOf (runScript envAllOk []).events).map Prod.fst = filenames :=
  c2_three_output_files envAllOk imgW rfl (fun _ => rfl)

/-- C3: if `Image.open` fails (missing, unreadable or invalid source),
the run terminates with an error before producing anything: the
directory is unchanged and no write or print event occurs. -/
theorem c3_load_failure_no_output (env : Env) (fs0 : FS)
    (hopen : env.openResult = none) :
    (runScript env fs0).fs = fs0 ∧ (runScript env fs0).events = [] ∧
    (runScript env fs0).outcome = Outcome.error := by
  unfold runScript runScriptWith
  rw [hopen]
  exact ⟨rfl, rfl, rfl⟩

/-- C3 witness: the theorem applied to the failing-open environment over
a non-empty starting directory. -/
theorem c3_witness :
    (runScript envNoOpen [("x", [1])]).fs = [("x", [1])] ∧
    (runScript envNoOpen [("x", [1])]).events = [] ∧
    (runScript envNoOpen [("x", [1])]).outcome = Outcome.error :=
  c3_load_failure_no_output envNoOpen [("x", [1])] rfl

/-- C7: the decoded source bitmap is never mutated by the loop: in every
run, the script's `img` binding at the end of the run is exactly the
bitmap produced by the load step (each resize builds a fresh bitmap from
it). -/
theorem c7_source_unchanged (env : Env) (fs0 : FS) :
    (runScript env fs0).source = env.openResult := by
  unfold runScript runScriptWith
  cases hop : env.openResult with
  | none => rfl
  | some img =>
      simp only []
      cases hr : (saveLoop env.resample env.saveOk img (sizes.zip filenames) 0).2 <;>
        simp [hr]

/-- C8: on a run in which the load and all three saves succeed, the
program prints exactly one line - the fixed success message - as its
last event, and exits with code zero (normal outcome). -/
theorem c8_success_print_exit_zero (env : Env) (img : Bitmap) (fs0 : FS)
    (hopen : env.openResult = some img) (hsave : ∀ k, env.saveOk k = true) :
    (runScript env fs0).outcome = Outcome.normal ∧
    printsOf (runScript env fs0).events = [successMsg] ∧
    (runScript env fs0).events.getLast? = some (Event.printed successMsg) := by
  rw [runScript_ok env img fs0 hopen hsave]
  exact ⟨rfl, rfl, rfl⟩

/-- C8 witness: the theorem applied to the concrete healthy environment. -/
theorem c8_witness :
    (runScript envAllOk []).outcome = Outcome.normal ∧
    printsOf (runScript envAllOk []).events = [successMsg] ∧
    (runScript envAllOk []).events.getLast? = some (Event.printed successMsg) :=
  c8_success_print_exit_zero envAllOk imgW [] rfl (fun _ => rfl)

/-- C4: every file written by the loop, in every run, is a valid PNG:
it starts with the PNG signature and decodes, because every save goes
through the PNG encoder. -/
theorem c4_outputs_png (env : Env) (fs0 : FS) (name : String) (bytes : List Nat)
    (h : Event.write name bytes ∈ (runScript env fs0).events) :
    pngValid bytes := by
  unfold runScript runScriptWith at h
  cases hop : env.openResult with
  | none => rw [hop] at h; simp at h
  | some img =>
      rw [hop] at h
      simp only [] at h
      split at h
      case _ =>
          rw [List.mem_append] at h
          rcases h with h | h
          · rw [List.mem_map] at h
            rcases h with ⟨p, hp, he⟩
            rcases p with ⟨pn, pb⟩
            injection he with hen heb
            subst hen; subst heb
            rcases saveLoop_mem_encode env.resample env.saveOk img
              (sizes.zip filenames) 0 pn pb hp with ⟨bm, hbm⟩
            subst hbm
            exact pngValid_encodePNG bm
          · simp at h
      case _ =>
          rw [List.mem_map] at h
          rcases h with ⟨p, hp, he⟩
          rcases p with ⟨pn, pb⟩
          injection he with hen heb
          subst hen; subst heb
          rcases saveLoop_mem_encode env.resample env.saveOk img
            (sizes.zip filenames) 0 pn pb hp with ⟨bm, hbm⟩
          subst hbm
          exact pngValid_encodePNG bm

/-- C4 witness: the theorem applied to the first write of the concrete
healthy run. -/
theorem c4_witness :
    pngValid [137, 80, 78, 71, 13, 10, 26, 10, 16, 16, 0] :=
  c4_outputs_png envAllOk [] "icon16.png"
    [137, 80, 78, 71, 13, 10, 26, 10, 16, 16, 0] (by decide)

/-- C5: the size/filename pairing is positional over two fixed
equal-length sequences (three entries each); for arbitrary sequences,
a successful run performs exactly min(len(sizes), len(filenames))
writes, so unequal lengths would silently truncate to the shorter. -/
theorem c5_positional_pairing :
    sizes.length = filenames.length ∧ sizes.length = 3 ∧
    ∀ (szs : List (Nat × Nat)) (fns : List String) (env : Env) (img : Bitmap)
      (fs0 : FS), env.openResult = some img → (∀ k, env.saveOk k = true) →
      (writesOf (runScriptWith szs fns env fs0).events).length =
        min szs.length fns.length := by
  refine ⟨rfl, rfl, ?_⟩
  intro szs fns env img fs0 hopen hsave
  have hev : (runScriptWith szs fns env fs0).events =
      ((szs.zip fns).map fun p =>
        Event.write p.2 (encodePNG (resizeImg env.resample img p.1))) ++
      [Event.printed successMsg] := by
    unfold runScriptWith
    rw [hopen]
    simp [saveLoop_all_ok env.resample env.saveOk img hsave]
  rw [hev, length_writesOf_resized env.resample img (szs.zip fns) successMsg]
  simp [List.length_zip]

/-- C5 witness: with two sizes and three filenames the loop performs
only two writes. -/
theorem c5_witness :
    (writesOf (runScriptWith [(16, 16), (48, 48)] filenames
      envAllOk []).events).length = 2 := by
  have h := c5_positional_pairing.2.2 [(16, 16), (48, 48)] filenames
    envAllOk imgW [] rfl (fun _ => rfl)
  rw [h]
  decide

/-- C6: re-running the script on the same unchanged source writes the
same three filenames with byte-identical contents (the event traces of
the two runs coincide) and leaves the directory exactly as the first
run left it: the second run silently overwrites each file with the same
bytes. -/
theorem c6_rerun_overwrites_identically (env : Env) (img : Bitmap) (fs0 : FS)
    (hopen : env.openResult = some img) (hsave : ∀ k, env.saveOk k = true) :
    (runScript env (runScript env fs0).fs).fs = (runScript env fs0).fs ∧
    (runScript env (runScript env fs0).fs).events =
      (runScript env fs0).events := by
  rw [runScript_ok env img fs0 hopen hsave, runScript_ok env img _ hopen hsave]
  refine ⟨?_, rfl⟩
  exact fsWrite_thrice_idem fs0 _ _ _ _ _ _ (by decide) (by decide) (by decide)

/-- C6 witness: the theorem applied to the concrete healthy environment. -/
theorem c6_witness :
    (runScript envAllOk (runScript envAllOk []).fs).fs =
      (runScript envAllOk []).fs ∧
    (runScript envAllOk (runScript envAllOk []).fs).events =
      (runScript envAllOk []).events :=
  c6_rerun_overwrites_identically envAllOk imgW [] rfl (fun _ => rfl)

/-- C9: the run is not atomic across iterations: when the load succeeds,
a failure of the very first save leaves the directory unchanged with no
write performed, while a failure at the second (respectively third) save
leaves the earlier one (respectively two) output files written on disk,
and the run ends in error. -/
theorem c9_not_atomic (env : Env) (img : Bitmap) (fs0 : FS)
    (hopen : env.openResult = some img) :
    (env.saveOk 0 = false →
      (runScript env fs0).fs = fs0 ∧ (runScript env fs0).events = []) ∧
    (env.saveOk 0 = true → env.saveOk 1 = false →
      (writesOf (runScript env fs0).events).map Prod.fst = ["icon16.png"] ∧
      fsGet (runScript env fs0).fs "icon16.png" =
        some (encodePNG (resizeImg env.resample img (16, 16))) ∧
      (runScript env fs0).outcome = Outcome.error) ∧
    (env.saveOk 0 = true → env.saveOk 1 = true → env.saveOk 2 = false →
      (writesOf (runScript env fs0).events).map Prod.fst =
        ["icon16.png", "icon48.png"] ∧
      fsGet (runScript env fs0).fs "icon16.png" =
        some (encodePNG (resizeImg env.resample img (16, 16))) ∧
      fsGet (runScript env fs0).fs "icon48.png" =
        some (encodePNG (resizeImg env.resample img (48, 48))) ∧
      (runScript env fs0).outcome = Outcome.error) := by
  unfold runScript runScriptWith
  rw [hopen]
  refine ⟨?_, ?_, ?_⟩
  · intro h0
    simp [zip_sizes_filenames, saveLoop, h0, applyWrites, writesOf]
  · intro h0 h1
    simp [zip_sizes_filenames, saveLoop, h0, h1, applyWrites, writesOf,
      fsGet_fsWrite_same]
  · intro h0 h1 h2
    have e1 : ("icon48.png" : String) ≠ "icon16.png" := by decide
    simp [zip_sizes_filenames, saveLoop, h0, h1, h2, applyWrites, writesOf,
      fsGet_fsWrite_same, fsGet_fsWrite_other _ _ e1]

/-- C9 witness: the theorem applied to the concrete environment whose
second save fails, showing "icon16.png" already written. -/
theorem c9_witness :
    (writesOf (runScript envFailSecond []).events).map Prod.fst =
      ["icon16.png"] ∧
    fsGet (runScript envFailSecond []).fs "icon16.png" =
      some (encodePNG (resizeImg envFailSecond.resample imgW (16, 16))) ∧
    (runScript envFailSecond []).outcome = Outcome.error :=
  (c9_not_atomic envFailSecond imgW [] rfl).2.1 rfl rfl

/-- C10: in every run the writes occur in the fixed order "icon16.png",
"icon48.png", "icon128.png" (the performed writes are always a prefix of
that list), and the success line is printed only after all three writes:
if the print event occurs, the trace is exactly the three writes, in
order, followed by the print as the last event. -/
theorem c10_print_after_all_writes (env : Env) (fs0 : FS) :
    (writesOf (runScript env fs0).events).map Prod.fst =
      filenames.take (writesOf (runScript env fs0).events).length ∧
    (Event.printed successMsg ∈ (runScript env fs0).events →
      (runScript env fs0).events =
        ((writesOf (runScript env fs0).events).map
          fun p => Event.write p.1 p.2) ++ [Event.printed successMsg] ∧
      (writesOf (runScript env fs0).events).map Prod.fst = filenames) := by
  unfold runScript runScriptWith
  cases hop : env.openResult with
  | none => simp [writesOf]
  | some img =>
      cases h0 : env.saveOk 0 with
      | false => simp [zip_sizes_filenames, saveLoop, h0, writesOf, filenames]
      | true =>
          cases h1 : env.saveOk 1 with
          | false =>
              simp [zip_sizes_filenames, saveLoop, h0, h1, writesOf, filenames]
          | true =>
              cases h2 : env.saveOk 2 with
              | false =>
                  simp [zip_sizes_filenames, saveLoop, h0, h1, h2, writesOf,
                    filenames]
              | true =>
                  simp [zip_sizes_filenames, saveLoop, h0, h1, h2, writesOf,
                    filenames]

/-- C10 witness: the theorem applied to the concrete healthy run, whose
trace does contain the print event. -/
theorem c10_witness :
    (runScript envAllOk []).events =
      ((writesOf (runScript envAllOk []).events).map
        fun p => Event.write p.1 p.2) ++ [Event.printed successMsg] ∧
    (writesOf (runScript envAllOk []).events).map Prod.fst = filenames :=
  (c10_print_after_all_writes envAllOk []).2 (by decide)

end IconMaker
